import Mathlib

/-!
Shallow embedding of the USB control-transfer engine of
src/firmware/lib/qusb/qusb_control.c and of the UART RX overrun latch of
src/firmware/include/uart.h.

Machine integers are modelled on Nat; uint16 arithmetic is reduced modulo
65536 exactly where the C code can wrap.  Hardware interactions
(ep_write_packet, ep_stall_set, device-address assignment, completion
callback invocation) are recorded as an explicit list of actions so that
theorems can speak about what the engine emits.  External collaborators
(user control callbacks and the standard request handler) are parameters
of the step functions, exactly as they are external to qusb_control.c.
-/

namespace Qusb

/-- uint16 subtraction: the value of the C expression (uint16_t)(a - b)
for a < 65536. -/
def sub16 (a b : Nat) : Nat := (a + 65536 - b % 65536) % 65536

/-- min_u16 from qusb_private.h: minimum of two uint16 values. -/
def min_u16 (a b : Nat) : Nat := min a b

/-- States of the control transfer state machine (spec section 3). -/
inductive CtrlState
  | IDLE
  | DATA_IN
  | LAST_DATA_IN
  | STATUS_IN
  | DATA_OUT
  | LAST_DATA_OUT
  | STATUS_OUT
  deriving DecidableEq

/-- The 8-byte USB setup packet, field values as natural numbers. -/
structure qusb_setup_data where
  bmRequestType : Nat
  bRequest : Nat
  wValue : Nat
  wIndex : Nat
  wLength : Nat
  deriving DecidableEq

/-- Standard USB direction mask for bmRequestType (bit 7). -/
def QUSB_REQ_TYPE_DIRECTION_MASK : Nat := 128

/-- Standard USB value of bmRequestType bit 7 for device-to-host (IN). -/
def QUSB_REQ_TYPE_IN : Nat := 128

/-- Standard USB request code of SET_ADDRESS. -/
def QUSB_REQ_SET_ADDRESS : Nat := 5

/-- Abstraction of the ctrl_buf pointer: the null pointer, a pointer into
the device control buffer dev->ctrl_buf at a byte offset, or a pointer
into some handler-supplied buffer (identified by a number) at an offset. -/
inductive buf_ptr
  | null
  | devBuf (off : Nat)
  | extBuf (id : Nat) (off : Nat)
  deriving DecidableEq

/-- Pointer arithmetic: advance a (non-null) buffer pointer by n bytes. -/
def buf_ptr.advance : buf_ptr → Nat → buf_ptr
  | .null, _ => .null
  | .devBuf o, n => .devBuf (o + n)
  | .extBuf i o, n => .extBuf i (o + n)

/-- Return codes of control request handlers (qusb_request_return_code). -/
inductive qusb_request_return_code
  | QUSB_REQ_NOTSUPP
  | QUSB_REQ_HANDLED
  | QUSB_REQ_NEXT_CALLBACK
  deriving DecidableEq

/-- One occupied entry of the user control callback table; cb is the
identity of the registered (non-null) callback function. -/
structure user_control_callback where
  type : Nat
  type_mask : Nat
  cb : Nat
  deriving DecidableEq

/-- The mutable slots of control_state that a control request handler
receives by pointer: ctrl_buf, ctrl_len and the completion callback. -/
structure ctrl_slots where
  ctrl_buf : buf_ptr
  ctrl_len : Nat
  completion : Option Nat
  deriving DecidableEq

/-- Behaviour of a user control callback: given the request and the
current slot values, it returns its return code and the new slot values
(it writes through the pointers it received). -/
def HandlerFn : Type := qusb_setup_data → ctrl_slots → qusb_request_return_code × ctrl_slots

/-- Behaviour of the external standard request handler
_qusb_standard_request: it receives the request plus the ctrl_buf and
ctrl_len slots and returns its boolean result and the new slot values. -/
def StdFn : Type := qusb_setup_data → buf_ptr × Nat → Bool × (buf_ptr × Nat)

/-- dev->control_state. -/
structure control_state_t where
  state : CtrlState
  req : qusb_setup_data
  ctrl_buf : buf_ptr
  ctrl_len : Nat
  completion : Option Nat
  deriving DecidableEq

/-- The parts of qusb_device the control transfer engine uses.  The table
has the fixed length MAX_USER_CONTROL_CALLBACK; an empty slot (cb == NULL)
is none. -/
structure qusb_device where
  bMaxPacketSize0 : Nat
  ctrl_buf_len : Nat
  user_control_callback : List (Option user_control_callback)
  control_state : control_state_t
  deriving DecidableEq

/-- Observable hardware-facing actions of the engine, in program order:
a packet written on endpoint 0 with the given length, endpoint 0 stalled,
the device address applied, or the completion callback (identified by the
number stored in the slot) invoked. -/
inductive Action
  | writePacket (len : Nat)
  | stallSet
  | setAddress (addr : Nat)
  | invokeCompletion (c : Nat)
  deriving DecidableEq

/-- Loop body of qusb_dev_register_control_callback: walk the table, skip
occupied slots, fill the first free slot and return 0; return -1 when no
slot is free. -/
def register_loop (c : user_control_callback) :
    List (Option user_control_callback) → Int × List (Option user_control_callback)
  | [] => (-1, [])
  | some e :: rest =>
      let r := register_loop c rest
      (r.1, some e :: r.2)
  | none :: rest => (0, some c :: rest)

/-- qusb_dev_register_control_callback: register an application callback
for handling USB control requests. -/
def qusb_dev_register_control_callback (dev : qusb_device)
    (ty mask cbid : Nat) : Int × qusb_device :=
  let r := register_loop ⟨ty, mask, cbid⟩ dev.user_control_callback
  (r.1, { dev with user_control_callback := r.2 })

/-- Loop of dispatch_request over the callback table: stop at the first
empty slot; invoke each matching handler; a HANDLED or NOTSUPP result ends
the loop, NEXT_CALLBACK continues.  Returns the decisive result (none if
the loop ran through), the slot values and the list of invoked callback
identities in invocation order. -/
def dispatch_loop (hf : Nat → HandlerFn) (req : qusb_setup_data) :
    List (Option user_control_callback) → ctrl_slots →
    Option Bool × ctrl_slots × List Nat
  | [], s => (none, s, [])
  | none :: _, s => (none, s, [])
  | some e :: rest, s =>
      if req.bmRequestType &&& e.type_mask = e.type then
        let hr := hf e.cb req s
        match hr.1 with
        | .QUSB_REQ_HANDLED => (some true, hr.2, [e.cb])
        | .QUSB_REQ_NOTSUPP => (some false, hr.2, [e.cb])
        | .QUSB_REQ_NEXT_CALLBACK =>
            let d := dispatch_loop hf req rest hr.2
            (d.1, d.2.1, e.cb :: d.2.2)
      else dispatch_loop hf req rest s

/-- dispatch_request: try the user callbacks; if none is decisive,
forward to the standard request handler, whose boolean result becomes the
dispatch result (true means handled). -/
def dispatch_request (hf : Nat → HandlerFn) (std : StdFn)
    (req : qusb_setup_data) (tbl : List (Option user_control_callback))
    (s : ctrl_slots) : Bool × ctrl_slots × List Nat :=
  match dispatch_loop hf req tbl s with
  | (some b, s1, inv) => (b, s1, inv)
  | (none, s1, inv) =>
      let r := std req (s1.ctrl_buf, s1.ctrl_len)
      (r.1, ⟨r.2.1, r.2.2, s1.completion⟩, inv)

/-- stall: stall endpoint 0 and force the state machine to IDLE. -/
def stall (dev : qusb_device) : qusb_device × List Action :=
  ({ dev with control_state := { dev.control_state with state := .IDLE } },
   [.stallSet])

/-- send_data_in: send the next DATA IN packet.  While more than one max
packet remains, send a full packet and stay in DATA_IN, advancing
ctrl_buf and decrementing ctrl_len and req.wLength (uint16 wrap).  For
the last chunk, send it and stay in DATA_IN (forcing a later ZLP) exactly
when the chunk is a full packet and shorter than the remaining
req.wLength; otherwise go to LAST_DATA_IN. -/
def send_data_in (dev : qusb_device) : qusb_device × List Action :=
  let max_packet_size := dev.bMaxPacketSize0
  let cs := dev.control_state
  if max_packet_size < cs.ctrl_len then
    ({ dev with control_state :=
        { cs with state := .DATA_IN,
                  ctrl_buf := cs.ctrl_buf.advance max_packet_size,
                  ctrl_len := cs.ctrl_len - max_packet_size,
                  req := { cs.req with
                           wLength := sub16 cs.req.wLength max_packet_size } } },
     [.writePacket max_packet_size])
  else
    ({ dev with control_state :=
        { cs with
          state := if cs.ctrl_len = max_packet_size ∧
                      cs.ctrl_len < cs.req.wLength then .DATA_IN
                   else .LAST_DATA_IN,
          ctrl_len := 0,
          ctrl_buf := .null } },
     [.writePacket cs.ctrl_len])

/-- read_data_out: accept a DATA OUT packet of expected size
min_u16(bMaxPacketSize0, wLength - ctrl_len) at buffer offset ctrl_len.
The parameter size is the length actually returned by ep_read_packet; a
mismatch stalls and returns -1, otherwise ctrl_len is advanced (uint16)
and packetsize returned. -/
def read_data_out (dev : qusb_device) (size : Nat) :
    (qusb_device × List Action) × Int :=
  let packetsize :=
    min_u16 dev.bMaxPacketSize0
      (sub16 dev.control_state.req.wLength dev.control_state.ctrl_len)
  if size ≠ packetsize then
    (stall dev, -1)
  else
    (({ dev with control_state :=
        { dev.control_state with
          ctrl_len := (dev.control_state.ctrl_len + size) % 65536 } }, []),
     Int.ofNat packetsize)

/-- handle_request_no_data: stage the device control buffer
(ctrl_buf = dev->ctrl_buf, ctrl_len = wLength), dispatch the request, and
on success either start the DATA IN stage (wLength > 0) or submit the
STATUS IN zero-length packet; on failure stall. -/
def handle_request_no_data (hf : Nat → HandlerFn) (std : StdFn)
    (dev : qusb_device) : qusb_device × List Action :=
  let cs := dev.control_state
  let d := dispatch_request hf std cs.req dev.user_control_callback
      ⟨.devBuf 0, cs.req.wLength, cs.completion⟩
  let dev1 := { dev with control_state :=
      { cs with ctrl_buf := d.2.1.ctrl_buf, ctrl_len := d.2.1.ctrl_len,
                completion := d.2.1.completion } }
  if d.1 then
    if cs.req.wLength > 0 then
      send_data_in dev1
    else
      ({ dev1 with control_state :=
          { dev1.control_state with state := .STATUS_IN } },
       [.writePacket 0])
  else
    stall dev1

/-- prepare_data_out: validate wLength against the control buffer
capacity (stall when too big), else stage the device buffer with
ctrl_len = 0 and enter DATA_OUT or LAST_DATA_OUT. -/
def prepare_data_out (dev : qusb_device) : qusb_device × List Action :=
  let cs := dev.control_state
  if cs.req.wLength > dev.ctrl_buf_len then
    stall dev
  else
    ({ dev with control_state :=
        { cs with ctrl_buf := .devBuf 0, ctrl_len := 0,
                  state := if cs.req.wLength > dev.bMaxPacketSize0 then
                             .DATA_OUT
                           else .LAST_DATA_OUT } },
     [])

/-- _qusb_control_setup: clear the completion callback, read the 8-byte
setup packet (readLen is what ep_read_packet returned; pkt its contents
when complete), stall on a short read, else process the request.  The
request direction and wLength choose between the no-data/IN path and the
OUT-data path. -/
def _qusb_control_setup (hf : Nat → HandlerFn) (std : StdFn)
    (dev : qusb_device) (readLen : Nat) (pkt : qusb_setup_data) :
    qusb_device × List Action :=
  let dev0 := { dev with control_state :=
      { dev.control_state with completion := none } }
  if readLen ≠ 8 then
    stall dev0
  else
    let dev1 := { dev0 with control_state :=
        { dev0.control_state with req := pkt } }
    if pkt.wLength = 0 ∨
        pkt.bmRequestType &&& QUSB_REQ_TYPE_DIRECTION_MASK = QUSB_REQ_TYPE_IN then
      handle_request_no_data hf std dev1
    else
      prepare_data_out dev1

/-- _qusb_control_out: handle a CONTROL OUT event.  size is the length
returned by ep_read_packet for the data packet.  In DATA_OUT accept a
packet and fall to LAST_DATA_OUT when at most one packet remains (the C
comparison wLength - ctrl_len <= bMaxPacketSize0 is on int, after integer
promotion); in LAST_DATA_OUT accept the last packet and dispatch; in
STATUS_OUT consume the status packet, go IDLE and invoke the completion
callback; in any other state stall. -/
def _qusb_control_out (hf : Nat → HandlerFn) (std : StdFn)
    (dev : qusb_device) (size : Nat) : qusb_device × List Action :=
  match dev.control_state.state with
  | .DATA_OUT =>
      let r := read_data_out dev size
      if r.2 < 0 then r.1
      else
        let dev1 := r.1.1
        let cs := dev1.control_state
        if (cs.req.wLength : Int) - (cs.ctrl_len : Int)
            ≤ (dev1.bMaxPacketSize0 : Int) then
          ({ dev1 with control_state := { cs with state := .LAST_DATA_OUT } },
           r.1.2)
        else
          r.1
  | .LAST_DATA_OUT =>
      let r := read_data_out dev size
      if r.2 < 0 then r.1
      else
        let dev1 := r.1.1
        let cs := dev1.control_state
        let d := dispatch_request hf std cs.req dev1.user_control_callback
            ⟨cs.ctrl_buf, cs.ctrl_len, cs.completion⟩
        let dev2 := { dev1 with control_state :=
            { cs with ctrl_buf := d.2.1.ctrl_buf, ctrl_len := d.2.1.ctrl_len,
                      completion := d.2.1.completion } }
        if d.1 then
          ({ dev2 with control_state :=
              { dev2.control_state with state := .STATUS_IN } },
           r.1.2 ++ [.writePacket 0])
        else
          let st := stall dev2
          (st.1, r.1.2 ++ st.2)
  | .STATUS_OUT =>
      let cs := dev.control_state
      let acts := match cs.completion with
        | some c => [Action.invokeCompletion c]
        | none => []
      ({ dev with control_state :=
          { cs with state := .IDLE, completion := none } },
       acts)
  | _ => stall dev

/-- _qusb_control_in: handle a CONTROL IN event.  In DATA_IN send the
next chunk; in LAST_DATA_IN move to STATUS_OUT; in STATUS_IN invoke the
completion callback, apply the device address for a standard SET_ADDRESS
request, and go IDLE; in any other state stall. -/
def _qusb_control_in (dev : qusb_device) : qusb_device × List Action :=
  match dev.control_state.state with
  | .DATA_IN => send_data_in dev
  | .LAST_DATA_IN =>
      ({ dev with control_state :=
          { dev.control_state with state := .STATUS_OUT } },
       [])
  | .STATUS_IN =>
      let cs := dev.control_state
      let acts1 := match cs.completion with
        | some c => [Action.invokeCompletion c]
        | none => []
      let acts2 :=
        if cs.req.bmRequestType = 0 ∧ cs.req.bRequest = QUSB_REQ_SET_ADDRESS
        then [Action.setAddress cs.req.wValue]
        else []
      ({ dev with control_state := { cs with state := .IDLE } },
       acts1 ++ acts2)
  | _ => stall dev

/-- One endpoint-0 hardware event together with the environment's inputs
for it: for a SETUP event, what ep_read_packet returned (length and
packet); for an OUT event, the length ep_read_packet returned for the
data packet. -/
inductive UsbEvent
  | setup (readLen : Nat) (pkt : qusb_setup_data)
  | ctrlOut (size : Nat)
  | ctrlIn
  deriving DecidableEq

/-- Perform one event: dispatch to the matching handler of
qusb_control.c. -/
def usb_step (hf : Nat → HandlerFn) (std : StdFn) (dev : qusb_device) :
    UsbEvent → qusb_device × List Action
  | .setup readLen pkt => _qusb_control_setup hf std dev readLen pkt
  | .ctrlOut size => _qusb_control_out hf std dev size
  | .ctrlIn => _qusb_control_in dev

/-- Run a list of events, concatenating the emitted actions. -/
def usb_run (hf : Nat → HandlerFn) (std : StdFn) (dev : qusb_device) :
    List UsbEvent → qusb_device × List Action
  | [] => (dev, [])
  | e :: es =>
      let r := usb_step hf std dev e
      let r2 := usb_run hf std r.1 es
      (r2.1, r.2 ++ r2.2)

/-- Is this action an invocation of the completion callback? -/
def Action.isInvoke : Action → Bool
  | .invokeCompletion _ => true
  | _ => false

/-- Is this action an application of the device address? -/
def Action.isSetAddress : Action → Bool
  | .setAddress _ => true
  | _ => false

/-- Is this action a packet write? -/
def Action.isWrite : Action → Bool
  | .writePacket _ => true
  | _ => false

/-- Number of completion callback invocations in an action list. -/
def countInvokes (acts : List Action) : Nat :=
  (acts.filter Action.isInvoke).length

/-- Is this event a SETUP event? -/
def UsbEvent.isSetup : UsbEvent → Bool
  | .setup _ _ => true
  | _ => false

/-- All slots of the table empty. -/
def allNone : List (Option user_control_callback) → Bool
  | [] => true
  | none :: rest => allNone rest
  | some _ :: _ => false

/-- The occupied slots form a contiguous leading block of the table. -/
def tableContig : List (Option user_control_callback) → Bool
  | [] => true
  | some _ :: rest => tableContig rest
  | none :: rest => allNone rest

/-- The registered callbacks of a table, in table order. -/
def occupied (tbl : List (Option user_control_callback)) :
    List user_control_callback :=
  tbl.filterMap id

/-- Specification-side dispatch scan, written after the words of the
spec: try the registered callbacks in registration order; each entry
whose mask-and-pattern matches the request has its handler invoked; a
handled or not-supported result stops the scan, a defer result continues
with the next matching entry. -/
def scan_callbacks (hf : Nat → HandlerFn) (req : qusb_setup_data) :
    List user_control_callback → ctrl_slots →
    Option Bool × ctrl_slots × List Nat
  | [], s => (none, s, [])
  | e :: rest, s =>
      if req.bmRequestType &&& e.type_mask = e.type then
        let hr := hf e.cb req s
        match hr.1 with
        | .QUSB_REQ_HANDLED => (some true, hr.2, [e.cb])
        | .QUSB_REQ_NOTSUPP => (some false, hr.2, [e.cb])
        | .QUSB_REQ_NEXT_CALLBACK =>
            let d := scan_callbacks hf req rest hr.2
            (d.1, d.2.1, e.cb :: d.2.2)
      else scan_callbacks hf req rest s

/-- Specification-side dispatch, written after the words of the spec:
scan the registered callbacks; if no callback is decisive, the standard
request handler's boolean result becomes the dispatch result. -/
def dispatch_after_spec (hf : Nat → HandlerFn) (std : StdFn)
    (req : qusb_setup_data) (cbs : List user_control_callback)
    (s : ctrl_slots) : Bool × ctrl_slots × List Nat :=
  match scan_callbacks hf req cbs s with
  | (some b, s1, inv) => (b, s1, inv)
  | (none, s1, inv) =>
      let r := std req (s1.ctrl_buf, s1.ctrl_len)
      (r.1, ⟨r.2.1, r.2.2, s1.completion⟩, inv)

/-- The device right after reset: state machine IDLE, empty callback
table of length M, no staged buffer, no completion callback. -/
def initial_device (M mps cbl : Nat) : qusb_device :=
  { bMaxPacketSize0 := mps, ctrl_buf_len := cbl,
    user_control_callback := List.replicate M none,
    control_state := { state := .IDLE, req := ⟨0, 0, 0, 0, 0⟩,
                       ctrl_buf := .null, ctrl_len := 0,
                       completion := none } }

/-- Well-formedness of the environment inputs of an event: a setup
packet carries a 16-bit wLength. -/
def UsbEvent.wf : UsbEvent → Prop
  | .setup _ pkt => pkt.wLength < 65536
  | _ => True

/-- Reachable device configurations: the reset state, closed under
endpoint-0 events (with well-formed inputs) and callback registration. -/
inductive Reach (hf : Nat → HandlerFn) (std : StdFn) : qusb_device → Prop
  | init (M mps cbl : Nat) : Reach hf std (initial_device M mps cbl)
  | step (d : qusb_device) (e : UsbEvent) : Reach hf std d → e.wf →
      Reach hf std (usb_step hf std d e).1
  | reg (d : qusb_device) (ty mask cbid : Nat) : Reach hf std d →
      Reach hf std (qusb_dev_register_control_callback d ty mask cbid).2

/-- The data-model invariant of the OUT data stage: while the engine is
in DATA_OUT or LAST_DATA_OUT, ctrl_buf points at the start of the device
control buffer and ctrl_len never exceeds the announced wLength, which
the SETUP-time capacity check bounded by ctrl_buf_len (and which is a
16-bit value). -/
def out_stage_inv (d : qusb_device) : Prop :=
  (d.control_state.state = CtrlState.DATA_OUT ∨
   d.control_state.state = CtrlState.LAST_DATA_OUT) →
    d.control_state.ctrl_buf = buf_ptr.devBuf 0 ∧
    d.control_state.ctrl_len ≤ d.control_state.req.wLength ∧
    d.control_state.req.wLength ≤ d.ctrl_buf_len ∧
    d.control_state.req.wLength < 65536

/-- Modelled from the spec: the UART driver's receive side as far as the
overrun latch is concerned (the uart_impl member function bodies are not
part of the sources; only include/uart.h is).  capacity is
UART_RX_BUF_LEN, rx_size the number of unread bytes in the ring buffer
(at most capacity - 1, one slot being sacrificed), rx_overrun_occurred
the sticky overrun latch. -/
structure uart_rx_state where
  capacity : Nat
  rx_size : Nat
  rx_overrun_occurred : Bool
  deriving DecidableEq

/-- Modelled from the spec: check_rx_overrun, the poll-time overrun
check (its body is not under src).  n is the number of bytes the DMA
producer appended since the previous poll.  If the buffer cannot have
held the unread data (more than capacity - 1 bytes would be pending),
the unread data was overwritten: latch the overrun and discard the
unread bytes; otherwise account the new bytes. -/
def check_rx_overrun (u : uart_rx_state) (n : Nat) : uart_rx_state :=
  if u.rx_size + n > u.capacity - 1 then
    { u with rx_size := 0, rx_overrun_occurred := true }
  else
    { u with rx_size := u.rx_size + n }

/-- Modelled from the spec: has_rx_overrun_occurred, the read-and-clear
query (its body is not under src): report the latch and clear it. -/
def has_rx_overrun_occurred (u : uart_rx_state) : Bool × uart_rx_state :=
  (u.rx_overrun_occurred, { u with rx_overrun_occurred := false })

/-- Modelled from the spec: the consumer side of copy_rx_data as far as
the RX byte count is concerned (its body is not under src): remove up to
len unread bytes and report how many were removed. -/
def copy_rx_data (u : uart_rx_state) (len : Nat) : Nat × uart_rx_state :=
  (min len u.rx_size, { u with rx_size := u.rx_size - min len u.rx_size })

/-- One operation on the UART receive side: a poll observing n freshly
produced bytes, a consumer read of up to len bytes, or the overrun
query. -/
inductive uart_op
  | poll (n : Nat)
  | read (len : Nat)
  | query
  deriving DecidableEq

/-- Perform one UART operation; a query additionally returns its
boolean result. -/
def uart_step (u : uart_rx_state) : uart_op → uart_rx_state × Option Bool
  | .poll n => (check_rx_overrun u n, none)
  | .read len => ((copy_rx_data u len).2, none)
  | .query =>
      let r := has_rx_overrun_occurred u
      (r.2, some r.1)

/-- Run a list of UART operations, collecting the query results in
order. -/
def uart_run (u : uart_rx_state) : List uart_op → uart_rx_state × List Bool
  | [] => (u, [])
  | op :: ops =>
      let r := uart_step u op
      let rr := uart_run r.1 ops
      (rr.1, (match r.2 with | some b => [b] | none => []) ++ rr.2)

/-- No poll of the operation list triggers an overrun along the run:
between two overrun episodes this is what distinguishes the episodes. -/
def run_no_overrun (u : uart_rx_state) : List uart_op → Bool
  | [] => true
  | op :: ops =>
      (match op with
       | .poll n => u.rx_size + n ≤ u.capacity - 1
       | _ => true)
      && run_no_overrun (uart_step u op).1 ops

/-- A handler that declares every request handled, registers completion
callback 1, and leaves buffer and length untouched. -/
def hfEx : Nat → HandlerFn := fun _ _ s =>
  (.QUSB_REQ_HANDLED, { s with completion := some 1 })

/-- A handler that declares every request handled, supplies 64 bytes of
response, and registers completion callback 1. -/
def hfShort : Nat → HandlerFn := fun _ _ s =>
  (.QUSB_REQ_HANDLED, { s with ctrl_len := 64, completion := some 1 })

/-- A standard request handler that accepts every request and leaves
buffer and length untouched. -/
def stdEx : StdFn := fun _ bl => (true, bl)

/-- A concrete device: max packet size 64, a 64-byte control buffer, and
one registered callback matching every IN request. -/
def devEx : qusb_device :=
  { bMaxPacketSize0 := 64, ctrl_buf_len := 64,
    user_control_callback := [some ⟨128, 128, 1⟩, none, none, none],
    control_state := { state := .IDLE, req := ⟨0, 0, 0, 0, 0⟩,
                       ctrl_buf := .null, ctrl_len := 0,
                       completion := none } }

/-- A concrete IN setup packet requesting 64 bytes. -/
def pktIn64 : qusb_setup_data := ⟨128, 0, 0, 0, 64⟩

/-- A concrete OUT setup packet announcing 70 bytes of payload. -/
def pktOut70 : qusb_setup_data := ⟨0, 0, 0, 0, 70⟩

/-- A concrete OUT setup packet announcing 64 bytes of payload. -/
def pktOut64 : qusb_setup_data := ⟨0, 0, 0, 0, 64⟩

/-- A concrete device whose callback table is completely occupied. -/
def devFull : qusb_device :=
  { devEx with user_control_callback := [some ⟨1, 1, 1⟩, some ⟨2, 2, 2⟩] }

/-- A concrete device in the middle of an IN data stage: 100 bytes of
response remain against a 64-byte max packet size. -/
def devC2 : qusb_device :=
  { devEx with control_state :=
      { state := .DATA_IN, req := ⟨128, 0, 0, 0, 200⟩,
        ctrl_buf := .devBuf 0, ctrl_len := 100, completion := none } }

/-- A concrete device awaiting the host's STATUS OUT packet with
completion callback 7 registered. -/
def devStatusOut : qusb_device :=
  { devEx with control_state :=
      { state := .STATUS_OUT, req := pktIn64, ctrl_buf := .null,
        ctrl_len := 0, completion := some 7 } }

/-- A concrete UART receive state near capacity, latch clear. -/
def uNear : uart_rx_state := ⟨1024, 1000, false⟩

/-- A concrete UART receive state right after an overrun episode. -/
def uLatched : uart_rx_state := ⟨1024, 0, true⟩

/-- A concrete UART receive state with the latch clear. -/
def uClear : uart_rx_state := ⟨1024, 0, false⟩

end Qusb

namespace Qusb

theorem stall_actions (d : qusb_device) :
    (stall d).2 = [Action.stallSet] ∧
    (stall d).1.control_state.state = CtrlState.IDLE :=
  ⟨rfl, rfl⟩

theorem send_data_in_actions (d : qusb_device) :
    ∃ n, (send_data_in d).2 = [Action.writePacket n] := by
  simp only [send_data_in]
  split
  · exact ⟨_, rfl⟩
  · exact ⟨_, rfl⟩

theorem register_loop_full (c : user_control_callback) :
    ∀ tbl, (∀ x ∈ tbl, x.isSome) → register_loop c tbl = (-1, tbl) := by
  intro tbl
  induction tbl with
  | nil => intro _; rfl
  | cons x rest ih =>
    intro h
    cases x with
    | none =>
      have hx := h none (List.mem_cons_self _ _)
      simp at hx
    | some e =>
      have hr := ih (fun y hy => h y (List.mem_cons_of_mem _ hy))
      simp [register_loop, hr]

theorem register_loop_free (c : user_control_callback) :
    ∀ pre post, (∀ x ∈ pre, x.isSome) →
      register_loop c (pre ++ none :: post) = (0, pre ++ some c :: post) := by
  intro pre
  induction pre with
  | nil => intro post _; rfl
  | cons x rest ih =>
    intro post h
    cases x with
    | none =>
      have hx := h none (List.mem_cons_self _ _)
      simp at hx
    | some e =>
      simp [register_loop, ih post (fun y hy => h y (List.mem_cons_of_mem _ hy))]

/-- C8: register_control_callback stores the new entry in the first free
slot of the table and returns 0; when every slot is occupied it returns
-1 and leaves the table (and the whole device) unchanged. -/
theorem c8_register_first_free :
    (∀ (dev : qusb_device) (ty mask cbid : Nat),
       (∀ x ∈ dev.user_control_callback, x.isSome) →
       qusb_dev_register_control_callback dev ty mask cbid = (-1, dev)) ∧
    (∀ (dev : qusb_device) (ty mask cbid : Nat)
       (pre post : List (Option user_control_callback)),
       dev.user_control_callback = pre ++ none :: post →
       (∀ x ∈ pre, x.isSome) →
       qusb_dev_register_control_callback dev ty mask cbid =
         (0, { dev with user_control_callback :=
                 pre ++ some ⟨ty, mask, cbid⟩ :: post })) := by
  constructor
  · intro dev ty mask cbid h
    simp [qusb_dev_register_control_callback, register_loop_full _ _ h]
  · intro dev ty mask cbid pre post htbl h
    simp [qusb_dev_register_control_callback, htbl, register_loop_free _ _ _ h]

theorem c8_register_first_free_witness :
    qusb_dev_register_control_callback devFull 1 2 3 = (-1, devFull) ∧
    qusb_dev_register_control_callback devEx 1 2 3 =
      (0, { devEx with user_control_callback :=
              [some ⟨128, 128, 1⟩, some ⟨1, 2, 3⟩, none, none] }) := by
  constructor
  · exact c8_register_first_free.1 devFull 1 2 3 (by decide)
  · exact c8_register_first_free.2 devEx 1 2 3 [some ⟨128, 128, 1⟩]
      [none, none] rfl (by decide)

/-- C7: every protocol violation stalls endpoint 0 and forces the state
machine to IDLE: a SETUP read returning other than 8 bytes; a DATA OUT
packet shorter than the expected min(max packet size, remaining bytes);
an OUT event outside DATA_OUT, LAST_DATA_OUT and STATUS_OUT; and an IN
event outside DATA_IN, LAST_DATA_IN and STATUS_IN. -/
theorem c7_protocol_violations_stall :
    (∀ (hf : Nat → HandlerFn) (std : StdFn) (d : qusb_device)
       (rl : Nat) (pkt : qusb_setup_data), rl ≠ 8 →
       (usb_step hf std d (.setup rl pkt)).2 = [Action.stallSet] ∧
       (usb_step hf std d (.setup rl pkt)).1.control_state.state =
         CtrlState.IDLE) ∧
    (∀ (hf : Nat → HandlerFn) (std : StdFn) (d : qusb_device) (sz : Nat),
       (d.control_state.state = CtrlState.DATA_OUT ∨
        d.control_state.state = CtrlState.LAST_DATA_OUT) →
       sz < min_u16 d.bMaxPacketSize0
             (sub16 d.control_state.req.wLength d.control_state.ctrl_len) →
       (usb_step hf std d (.ctrlOut sz)).2 = [Action.stallSet] ∧
       (usb_step hf std d (.ctrlOut sz)).1.control_state.state =
         CtrlState.IDLE) ∧
    (∀ (hf : Nat → HandlerFn) (std : StdFn) (d : qusb_device) (sz : Nat),
       d.control_state.state ≠ CtrlState.DATA_OUT →
       d.control_state.state ≠ CtrlState.LAST_DATA_OUT →
       d.control_state.state ≠ CtrlState.STATUS_OUT →
       (usb_step hf std d (.ctrlOut sz)).2 = [Action.stallSet] ∧
       (usb_step hf std d (.ctrlOut sz)).1.control_state.state =
         CtrlState.IDLE) ∧
    (∀ (hf : Nat → HandlerFn) (std : StdFn) (d : qusb_device),
       d.control_state.state ≠ CtrlState.DATA_IN →
       d.control_state.state ≠ CtrlState.LAST_DATA_IN →
       d.control_state.state ≠ CtrlState.STATUS_IN →
       (usb_step hf std d .ctrlIn).2 = [Action.stallSet] ∧
       (usb_step hf std d .ctrlIn).1.control_state.state =
         CtrlState.IDLE) := by
  refine ⟨?_, ?_, ?_, ?_⟩
  · intro hf std d rl pkt h
    simp [usb_step, _qusb_control_setup, h, stall]
  · intro hf std d sz hst hlt
    have hne : sz ≠ min_u16 d.bMaxPacketSize0
        (sub16 d.control_state.req.wLength d.control_state.ctrl_len) :=
      Nat.ne_of_lt hlt
    rcases hst with hst | hst <;>
      simp [usb_step, _qusb_control_out, hst, read_data_out, hne, stall]
  · intro hf std d sz h1 h2 h3
    cases hst : d.control_state.state <;>
      simp_all [usb_step, _qusb_control_out, stall]
  · intro hf std d h1 h2 h3
    cases hst : d.control_state.state <;>
      simp_all [usb_step, _qusb_control_in, stall]

theorem c7_protocol_violations_stall_witness :
    (usb_step hfEx stdEx devEx (.setup 5 pktIn64)).2 = [Action.stallSet] ∧
    (usb_step hfEx stdEx devEx .ctrlIn).2 = [Action.stallSet] :=
  ⟨(c7_protocol_violations_stall.1 hfEx stdEx devEx 5 pktIn64
      (by decide)).1,
   (c7_protocol_violations_stall.2.2.2 hfEx stdEx devEx
      (by decide) (by decide) (by decide)).1⟩

/-- C6: a SETUP with direction OUT and nonzero wLength stalls
immediately when wLength exceeds the control buffer capacity (and a
following OUT event is also stalled, so no DATA OUT packet is
processed); otherwise it stages the device buffer with ctrl_len = 0 and
enters DATA_OUT when wLength exceeds the max packet size, else
LAST_DATA_OUT. -/
theorem c6_out_setup_validation :
    ∀ (hf : Nat → HandlerFn) (std : StdFn) (d : qusb_device)
      (pkt : qusb_setup_data),
      pkt.bmRequestType &&& QUSB_REQ_TYPE_DIRECTION_MASK ≠ QUSB_REQ_TYPE_IN →
      pkt.wLength ≠ 0 →
      ((pkt.wLength > d.ctrl_buf_len →
          (usb_step hf std d (.setup 8 pkt)).2 = [Action.stallSet] ∧
          (usb_step hf std d (.setup 8 pkt)).1.control_state.state =
            CtrlState.IDLE ∧
          (∀ sz, (usb_step hf std (usb_step hf std d (.setup 8 pkt)).1
                    (.ctrlOut sz)).2 = [Action.stallSet])) ∧
       (¬ pkt.wLength > d.ctrl_buf_len →
          (usb_step hf std d (.setup 8 pkt)).2 = [] ∧
          (usb_step hf std d (.setup 8 pkt)).1.control_state.ctrl_len = 0 ∧
          (usb_step hf std d (.setup 8 pkt)).1.control_state.ctrl_buf =
            buf_ptr.devBuf 0 ∧
          (usb_step hf std d (.setup 8 pkt)).1.control_state.state =
            (if pkt.wLength > d.bMaxPacketSize0 then CtrlState.DATA_OUT
             else CtrlState.LAST_DATA_OUT))) := by
  intro hf std d pkt hdir hlen
  constructor
  · intro hcap
    refine ⟨?_, ?_, ?_⟩ <;>
      simp [usb_step, _qusb_control_setup, hdir, hlen, prepare_data_out,
            hcap, stall, _qusb_control_out]
  · intro hcap
    refine ⟨?_, ?_, ?_, ?_⟩ <;>
      simp [usb_step, _qusb_control_setup, hdir, hlen, prepare_data_out,
            hcap, stall]

theorem c6_out_setup_validation_witness :
    (usb_step hfEx stdEx devEx (.setup 8 pktOut70)).2 = [Action.stallSet] ∧
    (usb_step hfEx stdEx devEx (.setup 8 pktOut64)).1.control_state.state =
      CtrlState.LAST_DATA_OUT :=
  ⟨((c6_out_setup_validation hfEx stdEx devEx pktOut70 (by decide)
       (by decide)).1 (by decide)).1,
   by
     have h := ((c6_out_setup_validation hfEx stdEx devEx pktOut64
         (by decide) (by decide)).2 (by decide)).2.2.2
     simpa using h⟩

end Qusb

namespace Qusb


theorem read_data_out_actions (d : qusb_device) (sz : Nat) :
    (read_data_out d sz).1.2 = [] ∨
    (read_data_out d sz).1.2 = [Action.stallSet] := by
  simp only [read_data_out]
  split
  · right; rfl
  · left; rfl

theorem handle_request_no_data_actions (hf : Nat → HandlerFn)
    (std : StdFn) (d : qusb_device) :
    ∀ a ∈ (handle_request_no_data hf std d).2,
      a.isWrite = true ∨ a = Action.stallSet := by
  intro a ha
  simp only [handle_request_no_data] at ha
  split at ha
  · split at ha
    · obtain ⟨n, hn⟩ := send_data_in_actions _
      rw [hn] at ha
      simp at ha
      subst ha
      left; rfl
    · simp at ha
      subst ha
      left; rfl
  · simp [stall] at ha
    right; exact ha

theorem prepare_data_out_actions (d : qusb_device) :
    ∀ a ∈ (prepare_data_out d).2, a = Action.stallSet := by
  intro a ha
  simp only [prepare_data_out] at ha
  split at ha
  · simp [stall] at ha; exact ha
  · simp at ha

theorem setup_actions (hf : Nat → HandlerFn) (std : StdFn)
    (d : qusb_device) (rl : Nat) (pkt : qusb_setup_data) :
    ∀ a ∈ (_qusb_control_setup hf std d rl pkt).2,
      a.isWrite = true ∨ a = Action.stallSet := by
  intro a ha
  simp only [_qusb_control_setup] at ha
  split at ha
  · simp [stall] at ha; right; exact ha
  · split at ha
    · exact handle_request_no_data_actions _ _ _ a ha
    · right; exact prepare_data_out_actions _ a ha

theorem ctrl_out_actions (hf : Nat → HandlerFn) (std : StdFn)
    (d : qusb_device) (sz : Nat) :
    ∀ a ∈ (_qusb_control_out hf std d sz).2,
      a.isWrite = true ∨ a = Action.stallSet ∨ a.isInvoke = true := by
  intro a ha
  cases hst : d.control_state.state <;>
    simp only [_qusb_control_out, hst] at ha
  case DATA_OUT =>
    split at ha
    · rcases read_data_out_actions d sz with h | h <;> rw [h] at ha
      · simp at ha
      · simp at ha; right; left; exact ha
    · split at ha <;>
      · rcases read_data_out_actions d sz with h | h <;> rw [h] at ha
        · simp at ha
        · simp at ha; right; left; exact ha
  case LAST_DATA_OUT =>
    split at ha
    · rcases read_data_out_actions d sz with h | h <;> rw [h] at ha
      · simp at ha
      · simp at ha; right; left; exact ha
    · split at ha <;>
        rcases read_data_out_actions d sz with h | h <;>
          rw [h] at ha <;> simp [stall] at ha
      · subst ha; left; rfl
      · rcases ha with ha | ha
        · right; left; exact ha
        · subst ha; left; rfl
      · right; left; exact ha
      · right; left; exact ha
  case STATUS_OUT =>
    rcases hco : d.control_state.completion with _ | c <;>
      simp only [hco] at ha <;> simp at ha
    right; right; subst ha; rfl
  all_goals
    simp [stall] at ha; right; left; exact ha

theorem ctrl_in_actions (d : qusb_device) :
    ∀ a ∈ (_qusb_control_in d).2,
      a.isWrite = true ∨ a = Action.stallSet ∨ a.isInvoke = true ∨
      a.isSetAddress = true := by
  intro a ha
  cases hst : d.control_state.state <;>
    simp only [_qusb_control_in, hst] at ha
  case DATA_IN =>
    obtain ⟨n, hn⟩ := send_data_in_actions d
    rw [hn] at ha
    simp at ha; subst ha; left; rfl
  case LAST_DATA_IN => simp at ha
  case STATUS_IN =>
    rcases hco : d.control_state.completion with _ | c <;>
      simp only [hco] at ha <;>
      split at ha <;> simp at ha
    all_goals (first
      | (rcases ha with ha | ha <;> subst ha <;>
           simp [Action.isInvoke, Action.isSetAddress])
      | (subst ha; simp [Action.isInvoke, Action.isSetAddress]))
  all_goals
    simp [stall] at ha; right; left; exact ha

end Qusb

namespace Qusb


/-- C4: the device address is applied exactly at a STATUS_IN event of a
transfer whose request is the standard SET_ADDRESS request
(bmRequestType = 0, bRequest = SET_ADDRESS), with the address taken from
wValue; no SETUP handling and no data-stage event ever applies it. -/
theorem c4_set_address_deferred :
    ∀ (hf : Nat → HandlerFn) (std : StdFn) (d : qusb_device)
      (e : UsbEvent) (a : Nat),
      Action.setAddress a ∈ (usb_step hf std d e).2 ↔
        (e = UsbEvent.ctrlIn ∧
         d.control_state.state = CtrlState.STATUS_IN ∧
         d.control_state.req.bmRequestType = 0 ∧
         d.control_state.req.bRequest = QUSB_REQ_SET_ADDRESS ∧
         a = d.control_state.req.wValue) := by
  intro hf std d e a
  cases e with
  | setup rl pkt =>
    simp only [usb_step]
    constructor
    · intro ha
      rcases setup_actions hf std d rl pkt _ ha with h | h <;>
        simp [Action.isWrite] at h
    · rintro ⟨h, -⟩
      exact absurd h (by simp)
  | ctrlOut sz =>
    simp only [usb_step]
    constructor
    · intro ha
      rcases ctrl_out_actions hf std d sz _ ha with h | h | h <;>
        simp [Action.isWrite, Action.isInvoke] at h
    · rintro ⟨h, -⟩
      exact absurd h (by simp)
  | ctrlIn =>
    simp only [usb_step]
    cases hst : d.control_state.state
    case STATUS_IN =>
      simp only [_qusb_control_in, hst]
      rcases hco : d.control_state.completion with _ | c <;>
        simp only [hco] <;> split <;>
        rename_i hcond <;>
        simp [hst, hcond] <;> tauto
    case DATA_IN =>
      obtain ⟨n, hn⟩ := send_data_in_actions d
      simp only [_qusb_control_in, hst, hn]
      simp
    case LAST_DATA_IN =>
      simp [_qusb_control_in, hst]
    all_goals simp [_qusb_control_in, hst, stall]


theorem allNone_occupied :
    ∀ tbl, allNone tbl = true → occupied tbl = [] := by
  intro tbl
  induction tbl with
  | nil => intro _; rfl
  | cons x rest ih =>
    cases x with
    | none =>
      intro h
      have h' : allNone rest = true := by simpa [allNone] using h
      simpa [occupied, List.filterMap_cons] using ih h'
    | some e =>
      intro h
      simp [allNone] at h

theorem allNone_tableContig :
    ∀ tbl, allNone tbl = true → tableContig tbl = true := by
  intro tbl
  cases tbl with
  | nil => intro _; rfl
  | cons x rest =>
    cases x with
    | none => intro h; simpa [allNone, tableContig] using h
    | some e => intro h; simp [allNone] at h

theorem dispatch_loop_eq_scan (hf : Nat → HandlerFn)
    (req : qusb_setup_data) :
    ∀ tbl s, tableContig tbl = true →
      dispatch_loop hf req tbl s =
        scan_callbacks hf req (occupied tbl) s := by
  intro tbl
  induction tbl with
  | nil => intro s _; rfl
  | cons x rest ih =>
    intro s hc
    cases x with
    | none =>
      have hAll : allNone rest = true := by simpa [tableContig] using hc
      have hO : List.filterMap id rest = [] := by
        simpa [occupied] using allNone_occupied rest hAll
      simp [dispatch_loop, occupied, List.filterMap_cons, hO,
            scan_callbacks]
    | some e =>
      have hc' : tableContig rest = true := by simpa [tableContig] using hc
      simp only [dispatch_loop, occupied, List.filterMap_cons, id,
                 scan_callbacks]
      split
      · cases hr : (hf e.cb req s).1 <;> simp [hr, occupied, ih _ hc']
      · exact ih s hc'

/-- C5: on a table whose occupied entries form a contiguous leading
block (as registration maintains), dispatch scans the registered
callbacks in registration order: each matching entry is invoked, a
handled or not-supported result stops the scan with that result, defer
continues with the next matching entry, and when no callback is decisive
the standard request handler decides.  The last five parts spell out the
scan and fallback rules. -/
theorem c5_dispatch_order :
    (∀ (hf : Nat → HandlerFn) (std : StdFn) (req : qusb_setup_data)
       (tbl : List (Option user_control_callback)) (s : ctrl_slots),
       tableContig tbl = true →
       dispatch_request hf std req tbl s =
         dispatch_after_spec hf std req (occupied tbl) s) ∧
    (∀ (hf : Nat → HandlerFn) (req : qusb_setup_data)
       (e : user_control_callback) (rest : List user_control_callback)
       (s : ctrl_slots),
       req.bmRequestType &&& e.type_mask ≠ e.type →
       scan_callbacks hf req (e :: rest) s = scan_callbacks hf req rest s) ∧
    (∀ (hf : Nat → HandlerFn) (req : qusb_setup_data)
       (e : user_control_callback) (rest : List user_control_callback)
       (s : ctrl_slots),
       req.bmRequestType &&& e.type_mask = e.type →
       (hf e.cb req s).1 = qusb_request_return_code.QUSB_REQ_HANDLED →
       scan_callbacks hf req (e :: rest) s =
         (some true, (hf e.cb req s).2, [e.cb])) ∧
    (∀ (hf : Nat → HandlerFn) (req : qusb_setup_data)
       (e : user_control_callback) (rest : List user_control_callback)
       (s : ctrl_slots),
       req.bmRequestType &&& e.type_mask = e.type →
       (hf e.cb req s).1 = qusb_request_return_code.QUSB_REQ_NOTSUPP →
       scan_callbacks hf req (e :: rest) s =
         (some false, (hf e.cb req s).2, [e.cb])) ∧
    (∀ (hf : Nat → HandlerFn) (req : qusb_setup_data)
       (e : user_control_callback) (rest : List user_control_callback)
       (s : ctrl_slots),
       req.bmRequestType &&& e.type_mask = e.type →
       (hf e.cb req s).1 = qusb_request_return_code.QUSB_REQ_NEXT_CALLBACK →
       scan_callbacks hf req (e :: rest) s =
         ((scan_callbacks hf req rest (hf e.cb req s).2).1,
          (scan_callbacks hf req rest (hf e.cb req s).2).2.1,
          e.cb :: (scan_callbacks hf req rest (hf e.cb req s).2).2.2)) ∧
    (∀ (hf : Nat → HandlerFn) (std : StdFn) (req : qusb_setup_data)
       (s : ctrl_slots),
       dispatch_after_spec hf std req [] s =
         ((std req (s.ctrl_buf, s.ctrl_len)).1,
          ⟨(std req (s.ctrl_buf, s.ctrl_len)).2.1,
           (std req (s.ctrl_buf, s.ctrl_len)).2.2, s.completion⟩, [])) := by
  refine ⟨?_, ?_, ?_, ?_, ?_, ?_⟩
  · intro hf std req tbl s hc
    simp [dispatch_request, dispatch_after_spec,
          dispatch_loop_eq_scan hf req tbl s hc]
  · intro hf req e rest s h
    simp [scan_callbacks, h]
  · intro hf req e rest s h hr
    simp [scan_callbacks, h, hr]
  · intro hf req e rest s h hr
    simp [scan_callbacks, h, hr]
  · intro hf req e rest s h hr
    simp [scan_callbacks, h, hr]
  · intro hf std req s
    rfl

theorem c5_dispatch_order_witness :
    dispatch_request hfEx stdEx pktIn64 devEx.user_control_callback
        ⟨buf_ptr.devBuf 0, 64, none⟩ =
      dispatch_after_spec hfEx stdEx pktIn64
        (occupied devEx.user_control_callback)
        ⟨buf_ptr.devBuf 0, 64, none⟩ ∧
    scan_callbacks hfEx pktIn64 [⟨128, 128, 1⟩]
        ⟨buf_ptr.devBuf 0, 64, none⟩ =
      (some true,
       (hfEx 1 pktIn64 ⟨buf_ptr.devBuf 0, 64, none⟩).2, [1]) :=
  ⟨c5_dispatch_order.1 hfEx stdEx pktIn64 devEx.user_control_callback
     ⟨buf_ptr.devBuf 0, 64, none⟩ (by decide),
   c5_dispatch_order.2.2.1 hfEx pktIn64 ⟨128, 128, 1⟩ []
     ⟨buf_ptr.devBuf 0, 64, none⟩ (by decide) rfl⟩

end Qusb

namespace Qusb


theorem sub16_of_le (a b : Nat) (h1 : b ≤ a) (h2 : a < 65536) :
    sub16 a b = a - b := by
  simp only [sub16]
  omega

/-- C2: one call of send_data_in.  While the remaining response length
exceeds one max packet, a full-size packet is written and the state
stays DATA_IN (with ctrl_len and req.wLength decremented in lockstep).
Once the remainder fits in one packet, that packet is written, and the
state stays DATA_IN (forcing one further zero-length packet) exactly
when the final packet is full-size and ctrl_len is below the decremented
req.wLength; and for a data stage that started with ctrl_len at most the
original wLength (both below 65536), the comparison against the
decremented req.wLength coincides with comparing the total supplied
length against the original wLength, n being the amount decremented so
far. -/
theorem c2_send_data_in_chunking :
    (∀ d : qusb_device,
       d.bMaxPacketSize0 < d.control_state.ctrl_len →
       (send_data_in d).2 = [Action.writePacket d.bMaxPacketSize0] ∧
       (send_data_in d).1.control_state.state = CtrlState.DATA_IN ∧
       (send_data_in d).1.control_state.ctrl_len =
         d.control_state.ctrl_len - d.bMaxPacketSize0 ∧
       (send_data_in d).1.control_state.req.wLength =
         sub16 d.control_state.req.wLength d.bMaxPacketSize0) ∧
    (∀ d : qusb_device,
       ¬ d.bMaxPacketSize0 < d.control_state.ctrl_len →
       (send_data_in d).2 = [Action.writePacket d.control_state.ctrl_len] ∧
       ((send_data_in d).1.control_state.state = CtrlState.DATA_IN ↔
          (d.control_state.ctrl_len = d.bMaxPacketSize0 ∧
           d.control_state.ctrl_len < d.control_state.req.wLength)) ∧
       ((send_data_in d).1.control_state.state = CtrlState.DATA_IN ∨
        (send_data_in d).1.control_state.state = CtrlState.LAST_DATA_IN)) ∧
    (∀ L W n : Nat, L ≤ W → W < 65536 → n ≤ L →
       (L - n < sub16 W n ↔ L < W)) := by
  refine ⟨?_, ?_, ?_⟩
  · intro d h
    refine ⟨?_, ?_, ?_, ?_⟩ <;> simp [send_data_in, h]
  · intro d h
    refine ⟨?_, ?_, ?_⟩
    · simp [send_data_in, h]
    · simp only [send_data_in, if_neg h]
      split
      · rename_i hc
        exact iff_of_true rfl hc
      · rename_i hc
        exact iff_of_false (by simp) hc
    · simp only [send_data_in, if_neg h]
      split
      · left; rfl
      · right; rfl
  · intro L W n h1 h2 h3
    have hs : sub16 W n = W - n := sub16_of_le W n (le_trans h3 h1) h2
    rw [hs]
    omega

theorem c2_send_data_in_chunking_witness :
    (send_data_in devC2).2 = [Action.writePacket 64] ∧
    ((100 : Nat) - 64 < sub16 200 64 ↔ (100 : Nat) < 200) := by
  constructor
  · have h := (c2_send_data_in_chunking.1 devC2 (by decide)).1
    simpa using h
  · exact c2_send_data_in_chunking.2.2 100 200 64 (by decide) (by decide)
      (by decide)

end Qusb

namespace Qusb


/-- C10: read-and-clear semantics of the RX overrun latch.  The query
reports the latch and clears it; an overrun episode sets the latch; with
the latch set, the next query returns true with the latch cleared; and
as long as no further poll detects an overrun, every query starting from
a cleared latch returns false.  Together: exactly one true per overrun
episode. -/
theorem c10_overrun_read_and_clear :
    (∀ u : uart_rx_state,
       has_rx_overrun_occurred u =
         (u.rx_overrun_occurred, { u with rx_overrun_occurred := false })) ∧
    (∀ (u : uart_rx_state) (n : Nat), u.rx_size + n > u.capacity - 1 →
       (check_rx_overrun u n).rx_overrun_occurred = true) ∧
    (∀ (u : uart_rx_state) (ops : List uart_op),
       u.rx_overrun_occurred = true →
       (uart_run u (uart_op.query :: ops)).2 =
         true :: (uart_run (has_rx_overrun_occurred u).2 ops).2) ∧
    (∀ (u : uart_rx_state) (ops : List uart_op),
       u.rx_overrun_occurred = false → run_no_overrun u ops = true →
       ∀ b ∈ (uart_run u ops).2, b = false) := by
  refine ⟨?_, ?_, ?_, ?_⟩
  · intro u
    rfl
  · intro u n h
    simp [check_rx_overrun, h]
  · intro u ops h
    simp [uart_run, uart_step, has_rx_overrun_occurred, h]
  · intro u ops
    induction ops generalizing u with
    | nil =>
      intro _ _ b hb
      simp [uart_run] at hb
    | cons op ops ih =>
      intro h hno b hb
      cases op with
      | poll n =>
        simp only [run_no_overrun, Bool.and_eq_true] at hno
        obtain ⟨hc, hrest⟩ := hno
        have hle : ¬ u.rx_size + n > u.capacity - 1 := by
          simpa using hc
        simp only [uart_run, uart_step, List.nil_append] at hb
        refine ih (check_rx_overrun u n) ?_ ?_ b hb
        · simp [check_rx_overrun, hle, h]
        · simpa [uart_step] using hrest
      | read len =>
        simp only [run_no_overrun, Bool.true_and] at hno
        simp only [uart_run, uart_step, List.nil_append] at hb
        refine ih ((copy_rx_data u len).2) ?_ ?_ b hb
        · simp [copy_rx_data, h]
        · simpa [uart_step] using hno
      | query =>
        simp only [run_no_overrun, Bool.true_and] at hno
        simp only [uart_run, uart_step, has_rx_overrun_occurred, h,
                   List.singleton_append] at hb
        rcases List.mem_cons.mp hb with hb | hb
        · exact hb
        · refine ih _ rfl ?_ b hb
          simpa [uart_step, has_rx_overrun_occurred] using hno

theorem c10_overrun_read_and_clear_witness :
    (check_rx_overrun uNear 100).rx_overrun_occurred = true ∧
    (uart_run uLatched [uart_op.query, uart_op.query]).2 =
      true :: (uart_run (has_rx_overrun_occurred uLatched).2
                 [uart_op.query]).2 ∧
    (∀ b ∈ (uart_run uClear [uart_op.query]).2, b = false) :=
  ⟨c10_overrun_read_and_clear.2.1 uNear 100 (by decide),
   c10_overrun_read_and_clear.2.2.1 uLatched [uart_op.query] rfl,
   c10_overrun_read_and_clear.2.2.2 uClear [uart_op.query] rfl (by decide)⟩

end Qusb

namespace Qusb


theorem countInvokes_append (as bs : List Action) :
    countInvokes (as ++ bs) = countInvokes as + countInvokes bs := by
  simp [countInvokes, List.filter_append]

theorem countInvokes_eq_zero (as : List Action)
    (h : ∀ a ∈ as, a.isInvoke = false) : countInvokes as = 0 := by
  simp only [countInvokes, List.length_eq_zero, List.filter_eq_nil_iff]
  intro a ha
  simp [h a ha]

theorem countInvokes_pos_mem (as : List Action) (h : countInvokes as ≠ 0) :
    ∃ c, Action.invokeCompletion c ∈ as := by
  have hne : as.filter Action.isInvoke ≠ [] := by
    intro he
    rw [countInvokes, he] at h
    simp at h
  obtain ⟨a, ha⟩ := List.exists_mem_of_ne_nil _ hne
  have hmem := List.mem_of_mem_filter ha
  have hinv : a.isInvoke = true := List.of_mem_filter ha
  cases a <;> simp [Action.isInvoke] at hinv
  exact ⟨_, hmem⟩

theorem countInvokes_setup (hf : Nat → HandlerFn) (std : StdFn)
    (d : qusb_device) (rl : Nat) (pkt : qusb_setup_data) :
    countInvokes (usb_step hf std d (.setup rl pkt)).2 = 0 := by
  apply countInvokes_eq_zero
  intro a ha
  rcases setup_actions hf std d rl pkt a ha with h | h
  · cases a <;> simp_all [Action.isWrite, Action.isInvoke]
  · subst h; rfl

theorem status_out_step (hf : Nat → HandlerFn) (std : StdFn)
    (d : qusb_device) (sz : Nat)
    (hst : d.control_state.state = CtrlState.STATUS_OUT) :
    (usb_step hf std d (.ctrlOut sz)).2 =
      (match d.control_state.completion with
       | some c => [Action.invokeCompletion c]
       | none => []) ∧
    (usb_step hf std d (.ctrlOut sz)).1.control_state.state =
      CtrlState.IDLE ∧
    (usb_step hf std d (.ctrlOut sz)).1.control_state.completion = none := by
  refine ⟨?_, ?_, ?_⟩ <;> simp [usb_step, _qusb_control_out, hst]

theorem status_in_step (hf : Nat → HandlerFn) (std : StdFn)
    (d : qusb_device)
    (hst : d.control_state.state = CtrlState.STATUS_IN) :
    (usb_step hf std d .ctrlIn).2 =
      (match d.control_state.completion with
       | some c => [Action.invokeCompletion c]
       | none => []) ++
      (if d.control_state.req.bmRequestType = 0 ∧
          d.control_state.req.bRequest = QUSB_REQ_SET_ADDRESS
       then [Action.setAddress d.control_state.req.wValue] else []) ∧
    (usb_step hf std d .ctrlIn).1.control_state.state = CtrlState.IDLE := by
  constructor <;> simp [usb_step, _qusb_control_in, hst]

theorem invoke_mem_ctrl_out (hf : Nat → HandlerFn) (std : StdFn)
    (d : qusb_device) (sz c : Nat) :
    Action.invokeCompletion c ∈ (usb_step hf std d (.ctrlOut sz)).2 →
    d.control_state.state = CtrlState.STATUS_OUT ∧
    d.control_state.completion = some c := by
  intro ha
  simp only [usb_step] at ha
  cases hst : d.control_state.state <;>
    simp only [_qusb_control_out, hst] at ha
  case DATA_OUT =>
    exfalso
    split at ha
    · rcases read_data_out_actions d sz with hr | hr <;>
        rw [hr] at ha <;> simp at ha
    · split at ha <;>
        (rcases read_data_out_actions d sz with hr | hr <;>
          rw [hr] at ha <;> simp at ha)
  case LAST_DATA_OUT =>
    exfalso
    split at ha
    · rcases read_data_out_actions d sz with hr | hr <;>
        rw [hr] at ha <;> simp at ha
    · split at ha <;>
        (rcases read_data_out_actions d sz with hr | hr <;>
          rw [hr] at ha <;> simp [stall] at ha)
  case STATUS_OUT =>
    rcases hco : d.control_state.completion with _ | c2 <;>
      simp only [hco] at ha <;> simp at ha
    subst ha
    exact ⟨rfl, rfl⟩
  all_goals (exfalso; simp [stall] at ha)

theorem invoke_mem_ctrl_in (hf : Nat → HandlerFn) (std : StdFn)
    (d : qusb_device) (c : Nat) :
    Action.invokeCompletion c ∈ (usb_step hf std d .ctrlIn).2 →
    d.control_state.state = CtrlState.STATUS_IN ∧
    d.control_state.completion = some c := by
  intro ha
  simp only [usb_step] at ha
  cases hst : d.control_state.state <;>
    simp only [_qusb_control_in, hst] at ha
  case DATA_IN =>
    exfalso
    obtain ⟨n, hn⟩ := send_data_in_actions d
    rw [hn] at ha
    simp at ha
  case LAST_DATA_IN =>
    exfalso; simp at ha
  case STATUS_IN =>
    rcases hco : d.control_state.completion with _ | c2 <;>
      simp only [hco] at ha <;> split at ha <;> simp at ha
    all_goals (subst ha; exact ⟨rfl, rfl⟩)
  all_goals (exfalso; simp [stall] at ha)

theorem countInvokes_ite_setAddr (P : Prop) [Decidable P] (v : Nat) :
    countInvokes (if P then [Action.setAddress v] else []) = 0 := by
  split <;> simp [countInvokes, Action.isInvoke]

theorem ctrl_out_no_invoke (hf : Nat → HandlerFn) (std : StdFn)
    (d : qusb_device) (sz : Nat)
    (h : d.control_state.state ≠ CtrlState.STATUS_OUT) :
    countInvokes (usb_step hf std d (.ctrlOut sz)).2 = 0 := by
  apply countInvokes_eq_zero
  intro a ha
  cases a <;> try rfl
  exact absurd (invoke_mem_ctrl_out hf std d sz _ ha).1 h

theorem ctrl_in_no_invoke (hf : Nat → HandlerFn) (std : StdFn)
    (d : qusb_device)
    (h : d.control_state.state ≠ CtrlState.STATUS_IN) :
    countInvokes (usb_step hf std d .ctrlIn).2 = 0 := by
  apply countInvokes_eq_zero
  intro a ha
  cases a <;> try rfl
  exact absurd (invoke_mem_ctrl_in hf std d _ ha).1 h

theorem countInvokes_step_le_one (hf : Nat → HandlerFn) (std : StdFn)
    (d : qusb_device) (e : UsbEvent) :
    countInvokes (usb_step hf std d e).2 ≤ 1 := by
  cases e with
  | setup rl pkt => rw [countInvokes_setup]; omega
  | ctrlOut sz =>
    by_cases hst : d.control_state.state = CtrlState.STATUS_OUT
    · rw [(status_out_step hf std d sz hst).1]
      rcases hco : d.control_state.completion with _ | c <;>
        simp [countInvokes, Action.isInvoke]
    · rw [ctrl_out_no_invoke hf std d sz hst]; omega
  | ctrlIn =>
    by_cases hst : d.control_state.state = CtrlState.STATUS_IN
    · rw [(status_in_step hf std d hst).1, countInvokes_append,
          countInvokes_ite_setAddr]
      rcases hco : d.control_state.completion with _ | c <;>
        simp [countInvokes, Action.isInvoke]
    · rw [ctrl_in_no_invoke hf std d hst]; omega

theorem idle_nonsetup_step (hf : Nat → HandlerFn) (std : StdFn)
    (d : qusb_device) (e : UsbEvent)
    (hst : d.control_state.state = CtrlState.IDLE)
    (he : e.isSetup = false) :
    (usb_step hf std d e).2 = [Action.stallSet] ∧
    (usb_step hf std d e).1.control_state.state = CtrlState.IDLE := by
  cases e with
  | setup rl pkt => simp [UsbEvent.isSetup] at he
  | ctrlOut sz =>
    constructor <;> simp [usb_step, _qusb_control_out, hst, stall]
  | ctrlIn =>
    constructor <;> simp [usb_step, _qusb_control_in, hst, stall]

theorem idle_run_no_invokes (hf : Nat → HandlerFn) (std : StdFn) :
    ∀ (es : List UsbEvent) (d : qusb_device),
      d.control_state.state = CtrlState.IDLE →
      (∀ e ∈ es, e.isSetup = false) →
      countInvokes (usb_run hf std d es).2 = 0 := by
  intro es
  induction es with
  | nil =>
    intro d _ _
    simp [usb_run, countInvokes]
  | cons e es ih =>
    intro d hst hns
    have h1 := idle_nonsetup_step hf std d e hst
      (hns e (List.mem_cons_self _ _))
    have h2 := ih _ h1.2 (fun x hx => hns x (List.mem_cons_of_mem _ hx))
    simp only [usb_run]
    rw [countInvokes_append, h1.1, h2]
    simp [countInvokes, Action.isInvoke]

theorem invoking_nonsetup_step_idle (hf : Nat → HandlerFn) (std : StdFn)
    (d : qusb_device) (e : UsbEvent) (he : e.isSetup = false)
    (h : countInvokes (usb_step hf std d e).2 ≠ 0) :
    (usb_step hf std d e).1.control_state.state = CtrlState.IDLE := by
  obtain ⟨c, hc⟩ := countInvokes_pos_mem _ h
  cases e with
  | setup rl pkt => simp [UsbEvent.isSetup] at he
  | ctrlOut sz =>
    exact (status_out_step hf std d sz
      (invoke_mem_ctrl_out hf std d sz c hc).1).2.1
  | ctrlIn =>
    exact (status_in_step hf std d
      (invoke_mem_ctrl_in hf std d c hc).1).2


theorem run_nonsetup_le_one (hf : Nat → HandlerFn) (std : StdFn) :
    ∀ (es : List UsbEvent) (d : qusb_device),
      (∀ e ∈ es, e.isSetup = false) →
      countInvokes (usb_run hf std d es).2 ≤ 1 := by
  intro es
  induction es with
  | nil =>
    intro d _
    simp [usb_run, countInvokes]
  | cons e es ih =>
    intro d hns
    have hne := hns e (List.mem_cons_self _ _)
    have hns2 : ∀ x ∈ es, x.isSetup = false :=
      fun x hx => hns x (List.mem_cons_of_mem _ hx)
    simp only [usb_run]
    rw [countInvokes_append]
    by_cases h0 : countInvokes (usb_step hf std d e).2 = 0
    · rw [h0]
      simpa using ih _ hns2
    · have hidle := invoking_nonsetup_step_idle hf std d e hne h0
      rw [idle_run_no_invokes hf std es _ hidle hns2]
      simpa using countInvokes_step_le_one hf std d e

/-- C3: within one event at most one completion invocation occurs, and a
stalling event invokes none; consuming the STATUS_OUT packet with a
registered completion invokes exactly it, clears the slot and goes IDLE;
a STATUS_IN event with a registered completion invokes exactly it and
goes IDLE; from IDLE no completion fires until the next SETUP; between
two SETUPs at most one completion fires; and the outcome of a SETUP
event is independent of the previous transfer's completion slot (the
slot is cleared before dispatch), so an earlier transfer's callback can
never be invoked during a later transfer. -/
theorem c3_completion_exactly_once :
    (∀ (hf : Nat → HandlerFn) (std : StdFn) (d : qusb_device)
       (e : UsbEvent), countInvokes (usb_step hf std d e).2 ≤ 1) ∧
    (∀ (hf : Nat → HandlerFn) (std : StdFn) (d : qusb_device)
       (e : UsbEvent), Action.stallSet ∈ (usb_step hf std d e).2 →
       countInvokes (usb_step hf std d e).2 = 0) ∧
    (∀ (hf : Nat → HandlerFn) (std : StdFn) (d : qusb_device)
       (sz c : Nat),
       d.control_state.state = CtrlState.STATUS_OUT →
       d.control_state.completion = some c →
       (usb_step hf std d (.ctrlOut sz)).2 = [Action.invokeCompletion c] ∧
       (usb_step hf std d (.ctrlOut sz)).1.control_state.state =
         CtrlState.IDLE ∧
       (usb_step hf std d (.ctrlOut sz)).1.control_state.completion =
         none) ∧
    (∀ (hf : Nat → HandlerFn) (std : StdFn) (d : qusb_device) (c : Nat),
       d.control_state.state = CtrlState.STATUS_IN →
       d.control_state.completion = some c →
       countInvokes (usb_step hf std d .ctrlIn).2 = 1 ∧
       Action.invokeCompletion c ∈ (usb_step hf std d .ctrlIn).2 ∧
       (usb_step hf std d .ctrlIn).1.control_state.state =
         CtrlState.IDLE) ∧
    (∀ (hf : Nat → HandlerFn) (std : StdFn) (d : qusb_device)
       (es : List UsbEvent),
       d.control_state.state = CtrlState.IDLE →
       (∀ e ∈ es, e.isSetup = false) →
       countInvokes (usb_run hf std d es).2 = 0) ∧
    (∀ (hf : Nat → HandlerFn) (std : StdFn) (d : qusb_device)
       (es : List UsbEvent),
       (∀ e ∈ es, e.isSetup = false) →
       countInvokes (usb_run hf std d es).2 ≤ 1) ∧
    (∀ (hf : Nat → HandlerFn) (std : StdFn) (d : qusb_device)
       (co : Option Nat) (rl : Nat) (pkt : qusb_setup_data),
       usb_step hf std
           { d with control_state :=
               { d.control_state with completion := co } }
           (.setup rl pkt) =
         usb_step hf std d (.setup rl pkt)) := by
  refine ⟨?_, ?_, ?_, ?_, ?_, ?_, ?_⟩
  · exact countInvokes_step_le_one
  · intro hf std d e hmem
    cases e with
    | setup rl pkt => exact countInvokes_setup hf std d rl pkt
    | ctrlOut sz =>
      by_cases hst : d.control_state.state = CtrlState.STATUS_OUT
      · exfalso
        rw [(status_out_step hf std d sz hst).1] at hmem
        rcases hco : d.control_state.completion with _ | c <;>
          rw [hco] at hmem <;> simp at hmem
      · exact ctrl_out_no_invoke hf std d sz hst
    | ctrlIn =>
      by_cases hst : d.control_state.state = CtrlState.STATUS_IN
      · exfalso
        rw [(status_in_step hf std d hst).1] at hmem
        rcases hco : d.control_state.completion with _ | c <;>
          rw [hco] at hmem <;> simp at hmem
      · exact ctrl_in_no_invoke hf std d hst
  · intro hf std d sz c hst hco
    have h := status_out_step hf std d sz hst
    refine ⟨?_, h.2.1, h.2.2⟩
    rw [h.1, hco]
  · intro hf std d c hst hco
    have h := status_in_step hf std d hst
    refine ⟨?_, ?_, h.2⟩
    · rw [h.1, countInvokes_append, countInvokes_ite_setAddr, hco]
      simp [countInvokes, Action.isInvoke]
    · rw [h.1, hco]
      simp
  · intro hf std d es hst hns
    exact idle_run_no_invokes hf std es d hst hns
  · intro hf std d es hns
    exact run_nonsetup_le_one hf std es d hns
  · intro hf std d co rl pkt
    rfl

theorem c3_completion_exactly_once_witness :
    (usb_step hfEx stdEx devStatusOut (.ctrlOut 0)).2 =
      [Action.invokeCompletion 7] ∧
    countInvokes
      (usb_run hfEx stdEx devEx [UsbEvent.ctrlIn, UsbEvent.ctrlOut 0]).2
      ≤ 1 :=
  ⟨(c3_completion_exactly_once.2.2.1 hfEx stdEx devStatusOut 0 7
      rfl rfl).1,
   c3_completion_exactly_once.2.2.2.2.2.1 hfEx stdEx devEx
     [UsbEvent.ctrlIn, UsbEvent.ctrlOut 0] (by decide)⟩

end Qusb

namespace Qusb


theorem usb_run_append (hf : Nat → HandlerFn) (std : StdFn) :
    ∀ (es1 es2 : List UsbEvent) (d : qusb_device),
      usb_run hf std d (es1 ++ es2) =
        ((usb_run hf std (usb_run hf std d es1).1 es2).1,
         (usb_run hf std d es1).2 ++
           (usb_run hf std (usb_run hf std d es1).1 es2).2) := by
  intro es1
  induction es1 with
  | nil => intro es2 d; simp [usb_run]
  | cons e es ih =>
    intro es2 d
    simp [usb_run, ih]

theorem usb_run_cons (hf : Nat → HandlerFn) (std : StdFn)
    (d : qusb_device) (e : UsbEvent) (es : List UsbEvent) :
    usb_run hf std d (e :: es) =
      ((usb_run hf std (usb_step hf std d e).1 es).1,
       (usb_step hf std d e).2 ++
         (usb_run hf std (usb_step hf std d e).1 es).2) := rfl

theorem last_data_in_finish (hf : Nat → HandlerFn) (std : StdFn)
    (d : qusb_device) (c : Nat)
    (h1 : d.control_state.state = CtrlState.LAST_DATA_IN)
    (h2 : d.control_state.completion = some c) :
    (usb_run hf std d [.ctrlIn, .ctrlOut 0]).2 =
      [Action.invokeCompletion c] ∧
    (usb_run hf std d [.ctrlIn]).1.control_state.state =
      CtrlState.STATUS_OUT ∧
    (usb_run hf std d [.ctrlIn, .ctrlOut 0]).1.control_state.state =
      CtrlState.IDLE := by
  refine ⟨?_, ?_, ?_⟩ <;>
    simp [usb_run, usb_step, _qusb_control_in, h1, _qusb_control_out, h2]

theorem data_in_run (hf : Nat → HandlerFn) (std : StdFn) :
    ∀ (j : Nat) (d : qusb_device), 0 < j → 0 < d.bMaxPacketSize0 →
      d.control_state.state = CtrlState.DATA_IN →
      d.control_state.ctrl_len = j * d.bMaxPacketSize0 →
      d.control_state.req.wLength = j * d.bMaxPacketSize0 →
      j * d.bMaxPacketSize0 < 65536 →
      (usb_run hf std d (List.replicate j .ctrlIn)).2 =
        List.replicate j (Action.writePacket d.bMaxPacketSize0) ∧
      (usb_run hf std d (List.replicate j .ctrlIn)).1.control_state.state =
        CtrlState.LAST_DATA_IN ∧
      (usb_run hf std d
          (List.replicate j .ctrlIn)).1.control_state.completion =
        d.control_state.completion := by
  intro j
  induction j with
  | zero => intro d h; exact absurd h (Nat.lt_irrefl 0)
  | succ n ih =>
    intro d _ hm hst hlen hwl hlt
    by_cases hn : n = 0
    · subst hn
      refine ⟨?_, ?_, ?_⟩ <;>
        simp [usb_run, usb_step, _qusb_control_in, hst, send_data_in,
              hlen, hwl, Nat.lt_irrefl]
    · have hnpos : 0 < n := Nat.pos_of_ne_zero hn
      have h2m : 2 * d.bMaxPacketSize0 ≤ (n + 1) * d.bMaxPacketSize0 :=
        Nat.mul_le_mul_right _ (by omega)
      have hm1 : d.bMaxPacketSize0 < d.control_state.ctrl_len := by
        rw [hlen]; omega
      have hmle : d.bMaxPacketSize0 ≤ (n + 1) * d.bMaxPacketSize0 := by
        omega
      have hsub : sub16 ((n + 1) * d.bMaxPacketSize0) d.bMaxPacketSize0 =
          n * d.bMaxPacketSize0 := by
        rw [sub16_of_le _ _ hmle hlt]
        simp [Nat.succ_mul]
      have h6 : (usb_step hf std d .ctrlIn).2 =
          [Action.writePacket d.bMaxPacketSize0] := by
        simp [usb_step, _qusb_control_in, hst, send_data_in, hm1]
      have h1 : (usb_step hf std d .ctrlIn).1.control_state.state =
          CtrlState.DATA_IN := by
        simp [usb_step, _qusb_control_in, hst, send_data_in, hm1]
      have h4 : (usb_step hf std d .ctrlIn).1.bMaxPacketSize0 =
          d.bMaxPacketSize0 := by
        simp [usb_step, _qusb_control_in, hst, send_data_in, hm1]
      have h2 : (usb_step hf std d .ctrlIn).1.control_state.ctrl_len =
          n * d.bMaxPacketSize0 := by
        simp [usb_step, _qusb_control_in, hst, send_data_in, hm1, hlen,
              hnpos, hm, Nat.succ_mul]
      have h3 : (usb_step hf std d .ctrlIn).1.control_state.req.wLength =
          n * d.bMaxPacketSize0 := by
        simp [usb_step, _qusb_control_in, hst, send_data_in, hm1, hwl,
              hnpos, hm, hsub]
      have h5 :
          (usb_step hf std d .ctrlIn).1.control_state.completion =
            d.control_state.completion := by
        simp [usb_step, _qusb_control_in, hst, send_data_in, hm1]
      have hlt2 : n * d.bMaxPacketSize0 < 65536 := by
        have := Nat.mul_le_mul_right d.bMaxPacketSize0
          (show n ≤ n + 1 by omega)
        omega
      have ihres := ih (usb_step hf std d .ctrlIn).1 hnpos
        (h4 ▸ hm) h1 (by rw [h2, h4]) (by rw [h3, h4]) (by rw [h4]; exact hlt2)
      refine ⟨?_, ?_, ?_⟩
      · rw [List.replicate_succ, List.replicate_succ]
        simp only [usb_run]
        rw [h6, ihres.1, h4]
        simp
      · rw [List.replicate_succ]
        simp only [usb_run]
        exact ihres.2.1
      · rw [List.replicate_succ]
        simp only [usb_run]
        rw [ihres.2.2, h5]


theorem setup_in_step (hf : Nat → HandlerFn) (std : StdFn)
    (d : qusb_device) (pkt : qusb_setup_data) (s1 : ctrl_slots)
    (inv : List Nat) (c : Nat)
    (hdir : pkt.bmRequestType &&& QUSB_REQ_TYPE_DIRECTION_MASK =
      QUSB_REQ_TYPE_IN)
    (hpos : 0 < pkt.wLength)
    (hdisp : dispatch_request hf std pkt d.user_control_callback
      ⟨buf_ptr.devBuf 0, pkt.wLength, none⟩ = (true, s1, inv))
    (hlen : s1.ctrl_len = pkt.wLength)
    (hcomp : s1.completion = some c) :
    usb_step hf std d (.setup 8 pkt) =
      send_data_in
        { d with control_state :=
            { state := d.control_state.state, req := pkt,
              ctrl_buf := s1.ctrl_buf, ctrl_len := pkt.wLength,
              completion := some c } } := by
  simp [usb_step, _qusb_control_setup, hdir, handle_request_no_data,
        hdisp, hlen, hcomp, hpos]

/-- C1 as stated is false on the code: with wLength = 64 equal to the
max packet size and a handler supplying exactly 64 bytes, the engine
sends one full packet and goes directly to LAST_DATA_IN and then
STATUS_OUT; no trailing zero-length packet is produced, so the write
sequence is [64], not the claimed [64, 0]. -/
theorem c1_counterexample :
    ((usb_run hfEx stdEx devEx
        [.setup 8 pktIn64, .ctrlIn, .ctrlOut 0]).2.filter Action.isWrite
      = [Action.writePacket 64]) ∧
    (usb_step hfEx stdEx devEx (.setup 8 pktIn64)).1.control_state.state =
      CtrlState.LAST_DATA_IN ∧
    (usb_run hfEx stdEx devEx
        [.setup 8 pktIn64, .ctrlIn]).1.control_state.state =
      CtrlState.STATUS_OUT ∧
    (usb_run hfEx stdEx devEx [.setup 8 pktIn64, .ctrlIn, .ctrlOut 0]).2 =
      [Action.writePacket 64, Action.invokeCompletion 1] ∧
    [Action.writePacket 64] ≠
      [Action.writePacket 64, Action.writePacket 0] := by
  refine ⟨?_, ?_, ?_, ?_, ?_⟩ <;> decide

/-- C1 amended: for a SETUP with direction IN and wLength = N a nonzero
multiple q * maxpacket of the max packet size, with a handler that marks
the request handled, supplies exactly N bytes (ctrl_len = N) and
registers a completion callback, the engine emits exactly q max-size
DATA_IN packets and no zero-length packet, transitions to STATUS_OUT on
the IN event following the last data packet, and invokes the completion
callback after consuming the host's STATUS_OUT packet. -/
theorem c1_amended_in_round_trip :
    ∀ (hf : Nat → HandlerFn) (std : StdFn) (d : qusb_device)
      (pkt : qusb_setup_data) (q c : Nat) (s1 : ctrl_slots)
      (inv : List Nat),
      0 < d.bMaxPacketSize0 → 0 < q →
      pkt.wLength = q * d.bMaxPacketSize0 →
      pkt.wLength < 65536 →
      pkt.bmRequestType &&& QUSB_REQ_TYPE_DIRECTION_MASK =
        QUSB_REQ_TYPE_IN →
      dispatch_request hf std pkt d.user_control_callback
          ⟨buf_ptr.devBuf 0, pkt.wLength, none⟩ = (true, s1, inv) →
      s1.ctrl_len = pkt.wLength →
      s1.completion = some c →
      (usb_run hf std d
          (.setup 8 pkt :: (List.replicate (q - 1) .ctrlIn ++
            [.ctrlIn, .ctrlOut 0]))).2 =
        List.replicate q (Action.writePacket d.bMaxPacketSize0) ++
          [Action.invokeCompletion c] ∧
      (usb_run hf std d
          (.setup 8 pkt :: (List.replicate (q - 1) .ctrlIn ++
            [.ctrlIn]))).1.control_state.state = CtrlState.STATUS_OUT ∧
      (usb_run hf std d
          (.setup 8 pkt :: (List.replicate (q - 1) .ctrlIn ++
            [.ctrlIn, .ctrlOut 0]))).1.control_state.state =
        CtrlState.IDLE := by
  intro hf std d pkt q c s1 inv hm hq hN hW hdir hdisp hlen hcomp
  obtain ⟨qp, rfl⟩ : ∃ qp, q = qp + 1 :=
    ⟨q - 1, (Nat.succ_pred_eq_of_pos hq).symm⟩
  have hpos : 0 < pkt.wLength := by
    rw [hN]; exact Nat.mul_pos hq hm
  have hsetup := setup_in_step hf std d pkt s1 inv c hdir hpos hdisp
    hlen hcomp
  simp only [Nat.add_sub_cancel]
  by_cases hqp : qp = 0
  · subst hqp
    have hm1 : ¬ d.bMaxPacketSize0 < pkt.wLength := by
      rw [hN]; simp
    have e1 : (usb_step hf std d (.setup 8 pkt)).2 =
        [Action.writePacket d.bMaxPacketSize0] := by
      rw [hsetup]
      simp [send_data_in, hm1, hN]
    have e2 : (usb_step hf std d (.setup 8 pkt)).1.control_state.state =
        CtrlState.LAST_DATA_IN := by
      rw [hsetup]
      simp [send_data_in, hm1, hN]
    have e3 :
        (usb_step hf std d
          (.setup 8 pkt)).1.control_state.completion = some c := by
      rw [hsetup]
      simp [send_data_in, hm1]
    have hfin := last_data_in_finish hf std
      (usb_step hf std d (.setup 8 pkt)).1 c e2 e3
    refine ⟨?_, ?_, ?_⟩
    · simp only [List.replicate_zero, List.nil_append]
      rw [usb_run_cons, e1, hfin.1]
      simp
    · simp only [List.replicate_zero, List.nil_append]
      rw [usb_run_cons]
      exact hfin.2.1
    · simp only [List.replicate_zero, List.nil_append]
      rw [usb_run_cons]
      exact hfin.2.2
  · have hqppos : 0 < qp := Nat.pos_of_ne_zero hqp
    have h2m : 2 * d.bMaxPacketSize0 ≤ (qp + 1) * d.bMaxPacketSize0 :=
      Nat.mul_le_mul_right _ (by omega)
    have hm1 : d.bMaxPacketSize0 < pkt.wLength := by
      rw [hN]; omega
    have hmle : d.bMaxPacketSize0 ≤ pkt.wLength := by omega
    have hsub : sub16 pkt.wLength d.bMaxPacketSize0 =
        qp * d.bMaxPacketSize0 := by
      rw [sub16_of_le _ _ hmle hW, hN]
      simp [Nat.succ_mul]
    have hsd : usb_step hf std d (.setup 8 pkt) =
        ({ d with control_state :=
            { state := CtrlState.DATA_IN,
              req := { pkt with
                wLength := sub16 pkt.wLength d.bMaxPacketSize0 },
              ctrl_buf := s1.ctrl_buf.advance d.bMaxPacketSize0,
              ctrl_len := pkt.wLength - d.bMaxPacketSize0,
              completion := some c } },
         [Action.writePacket d.bMaxPacketSize0]) := by
      rw [hsetup]
      simp [send_data_in, hm1]
    have e1 : (usb_step hf std d (.setup 8 pkt)).2 =
        [Action.writePacket d.bMaxPacketSize0] := by rw [hsd]
    have f1 : (usb_step hf std d (.setup 8 pkt)).1.control_state.state =
        CtrlState.DATA_IN := by rw [hsd]
    have f5 : (usb_step hf std d (.setup 8 pkt)).1.bMaxPacketSize0 =
        d.bMaxPacketSize0 := by rw [hsd]
    have f2 :
        (usb_step hf std d (.setup 8 pkt)).1.control_state.ctrl_len =
          qp * d.bMaxPacketSize0 := by
      rw [hsd]
      show pkt.wLength - d.bMaxPacketSize0 = qp * d.bMaxPacketSize0
      rw [hN, Nat.succ_mul]
      omega
    have f3 :
        (usb_step hf std d
          (.setup 8 pkt)).1.control_state.req.wLength =
          qp * d.bMaxPacketSize0 := by
      rw [hsd]
      exact hsub
    have f4 :
        (usb_step hf std d
          (.setup 8 pkt)).1.control_state.completion = some c := by
      rw [hsd]
    have hlt2 : qp * d.bMaxPacketSize0 < 65536 := by
      have := Nat.mul_le_mul_right d.bMaxPacketSize0
        (show qp ≤ qp + 1 by omega)
      rw [hN] at hW
      omega
    have hrun := data_in_run hf std qp
      (usb_step hf std d (.setup 8 pkt)).1 hqppos (f5 ▸ hm) f1
      (by rw [f2, f5]) (by rw [f3, f5]) (by rw [f5]; exact hlt2)
    have hLstate :
        (usb_run hf std (usb_step hf std d (.setup 8 pkt)).1
          (List.replicate qp .ctrlIn)).1.control_state.state =
          CtrlState.LAST_DATA_IN := hrun.2.1
    have hLcomp :
        (usb_run hf std (usb_step hf std d (.setup 8 pkt)).1
          (List.replicate qp .ctrlIn)).1.control_state.completion =
          some c := by
      rw [hrun.2.2, f4]
    have hfin := last_data_in_finish hf std
      (usb_run hf std (usb_step hf std d (.setup 8 pkt)).1
        (List.replicate qp .ctrlIn)).1 c hLstate hLcomp
    refine ⟨?_, ?_, ?_⟩
    · rw [usb_run_cons, usb_run_append, e1, hrun.1, hfin.1, f5]
      simp [List.replicate_succ]
    · rw [usb_run_cons, usb_run_append]
      exact hfin.2.1
    · rw [usb_run_cons, usb_run_append]
      exact hfin.2.2

theorem c1_amended_in_round_trip_witness :
    (usb_run hfEx stdEx devEx
        (.setup 8 pktIn64 :: (List.replicate 0 .ctrlIn ++
          [.ctrlIn, .ctrlOut 0]))).2 =
      List.replicate 1 (Action.writePacket 64) ++
        [Action.invokeCompletion 1] := by
  have h := c1_amended_in_round_trip hfEx stdEx devEx pktIn64 1 1
    ⟨buf_ptr.devBuf 0, 64, some 1⟩ [1] (by decide) (by decide)
    (by decide) (by decide) (by decide) (by decide) (by decide)
    (by decide)
  simpa using h.1

end Qusb

namespace Qusb


theorem allNone_replicate : ∀ M : Nat, allNone (List.replicate M none) = true := by
  intro M
  induction M with
  | zero => rfl
  | succ n ih => simpa [List.replicate_succ, allNone] using ih

theorem register_loop_contig (c : user_control_callback) :
    ∀ tbl, tableContig tbl = true →
      tableContig (register_loop c tbl).2 = true := by
  intro tbl
  induction tbl with
  | nil => intro _; rfl
  | cons x rest ih =>
    intro h
    cases x with
    | none =>
      have hAll : allNone rest = true := by simpa [tableContig] using h
      simpa [register_loop, tableContig] using allNone_tableContig rest hAll
    | some e =>
      have h' : tableContig rest = true := by simpa [tableContig] using h
      simpa [register_loop, tableContig] using ih h'

theorem send_data_in_state (d : qusb_device) :
    (send_data_in d).1.control_state.state = CtrlState.DATA_IN ∨
    (send_data_in d).1.control_state.state = CtrlState.LAST_DATA_IN := by
  simp only [send_data_in]
  split
  · left; rfl
  · split
    · left; rfl
    · right; rfl

theorem send_data_in_not_out (d : qusb_device) :
    (send_data_in d).1.control_state.state ≠ CtrlState.DATA_OUT ∧
    (send_data_in d).1.control_state.state ≠ CtrlState.LAST_DATA_OUT := by
  constructor <;> (rcases send_data_in_state d with h | h <;> simp [h])

theorem hrnd_not_out (hf : Nat → HandlerFn) (std : StdFn)
    (dev : qusb_device) :
    (handle_request_no_data hf std
        dev).1.control_state.state ≠ CtrlState.DATA_OUT ∧
    (handle_request_no_data hf std
        dev).1.control_state.state ≠ CtrlState.LAST_DATA_OUT := by
  simp only [handle_request_no_data]
  split
  · split
    · exact ⟨(send_data_in_not_out _).1, (send_data_in_not_out _).2⟩
    · constructor <;> simp
  · constructor <;> simp [stall]

theorem out_stage_inv_of_ne (d : qusb_device)
    (h1 : d.control_state.state ≠ CtrlState.DATA_OUT)
    (h2 : d.control_state.state ≠ CtrlState.LAST_DATA_OUT) :
    out_stage_inv d := by
  intro h
  rcases h with h | h
  · exact absurd h h1
  · exact absurd h h2

theorem stall_table (d : qusb_device) :
    (stall d).1.user_control_callback = d.user_control_callback := rfl

theorem send_data_in_table (d : qusb_device) :
    (send_data_in d).1.user_control_callback = d.user_control_callback := by
  simp only [send_data_in]
  split <;> rfl

theorem usb_step_table (hf : Nat → HandlerFn) (std : StdFn)
    (d : qusb_device) (e : UsbEvent) :
    (usb_step hf std d e).1.user_control_callback =
      d.user_control_callback := by
  cases e with
  | setup rl pkt =>
    simp only [usb_step, _qusb_control_setup]
    split
    · rfl
    · split
      · simp only [handle_request_no_data]
        split
        · split
          · rw [send_data_in_table]
          · rfl
        · rfl
      · simp only [prepare_data_out]
        split <;> rfl
  | ctrlOut sz =>
    simp only [usb_step, _qusb_control_out]
    cases hst : d.control_state.state <;> simp only [hst]
    case DATA_OUT =>
      simp only [read_data_out]
      split
      · rfl
      · split
        · rfl
        · split <;> rfl
    case LAST_DATA_OUT =>
      simp only [read_data_out]
      split
      · rfl
      · split
        · rfl
        · split <;> rfl
    all_goals rfl
  | ctrlIn =>
    simp only [usb_step, _qusb_control_in]
    cases hst : d.control_state.state <;> simp only [hst]
    case DATA_IN => rw [send_data_in_table]
    all_goals rfl


theorem step_preserves_out_inv (hf : Nat → HandlerFn) (std : StdFn)
    (d : qusb_device) (e : UsbEvent) (hwf : e.wf)
    (hI : out_stage_inv d) :
    out_stage_inv (usb_step hf std d e).1 := by
  cases e with
  | setup rl pkt =>
    have hwf2 : pkt.wLength < 65536 := hwf
    simp only [usb_step, _qusb_control_setup]
    split
    · exact out_stage_inv_of_ne _ (by simp [stall]) (by simp [stall])
    · split
      · exact out_stage_inv_of_ne _ (hrnd_not_out _ _ _).1
          (hrnd_not_out _ _ _).2
      · simp only [prepare_data_out]
        split
        · exact out_stage_inv_of_ne _ (by simp [stall]) (by simp [stall])
        · rename_i hcap
          intro hst2
          exact ⟨rfl, Nat.zero_le _, Nat.le_of_not_lt hcap, hwf2⟩
  | ctrlOut sz =>
    cases hst : d.control_state.state <;>
      simp only [usb_step, _qusb_control_out, hst]
    case DATA_OUT =>
      obtain ⟨hbuf, hlen, hcap, hw⟩ := hI (Or.inl hst)
      by_cases hsz : sz = min_u16 d.bMaxPacketSize0
          (sub16 d.control_state.req.wLength d.control_state.ctrl_len)
      · have hszle : sz ≤
            d.control_state.req.wLength - d.control_state.ctrl_len := by
          rw [hsz, min_u16, sub16_of_le _ _ hlen hw]
          omega
        have hsum : d.control_state.ctrl_len + sz ≤
            d.control_state.req.wLength := by omega
        have hmod : (d.control_state.ctrl_len + sz) % 65536 =
            d.control_state.ctrl_len + sz :=
          Nat.mod_eq_of_lt (by omega)
        have hlen2 : (d.control_state.ctrl_len + sz) % 65536 ≤
            d.control_state.req.wLength := by
          rw [hmod]; exact hsum
        simp only [read_data_out, if_neg (not_not_intro hsz)]
        split
        · rename_i hneg
          exact absurd hneg (Int.not_lt.mpr (Int.ofNat_nonneg _))
        · split <;> (intro _; exact ⟨hbuf, hlen2, hcap, hw⟩)
      · simp only [read_data_out, if_pos hsz]
        split
        · exact out_stage_inv_of_ne _ (by simp [stall]) (by simp [stall])
        · rename_i hpos2
          simp [stall] at hpos2
    case LAST_DATA_OUT =>
      by_cases hsz : sz = min_u16 d.bMaxPacketSize0
          (sub16 d.control_state.req.wLength d.control_state.ctrl_len)
      · simp only [read_data_out, if_neg (not_not_intro hsz)]
        split
        · rename_i hneg
          exact absurd hneg (Int.not_lt.mpr (Int.ofNat_nonneg _))
        · split
          · exact out_stage_inv_of_ne _ (by simp) (by simp)
          · exact out_stage_inv_of_ne _ (by simp [stall]) (by simp [stall])
      · simp only [read_data_out, if_pos hsz]
        split
        · exact out_stage_inv_of_ne _ (by simp [stall]) (by simp [stall])
        · rename_i hpos2
          simp [stall] at hpos2
    case STATUS_OUT =>
      exact out_stage_inv_of_ne _ (by simp) (by simp)
    all_goals
      exact out_stage_inv_of_ne _ (by simp [stall]) (by simp [stall])
  | ctrlIn =>
    cases hst : d.control_state.state <;>
      simp only [usb_step, _qusb_control_in, hst]
    case DATA_IN =>
      exact out_stage_inv_of_ne _ (send_data_in_not_out _).1
        (send_data_in_not_out _).2
    case LAST_DATA_IN =>
      exact out_stage_inv_of_ne _ (by simp) (by simp)
    case STATUS_IN =>
      exact out_stage_inv_of_ne _ (by simp) (by simp)
    all_goals
      exact out_stage_inv_of_ne _ (by simp [stall]) (by simp [stall])

theorem reach_inv (hf : Nat → HandlerFn) (std : StdFn) :
    ∀ d, Reach hf std d →
      tableContig d.user_control_callback = true ∧ out_stage_inv d := by
  intro d h
  induction h with
  | init M mps cbl =>
    refine ⟨allNone_tableContig _ (allNone_replicate M), ?_⟩
    intro hst
    rcases hst with hst | hst <;> simp [initial_device] at hst
  | step d e hr hwf ih =>
    exact ⟨by rw [usb_step_table]; exact ih.1,
           step_preserves_out_inv hf std d e hwf ih.2⟩
  | reg d ty mask cbid hr ih =>
    refine ⟨?_, ?_⟩
    · simp only [qusb_dev_register_control_callback]
      exact register_loop_contig _ _ ih.1
    · intro hst
      exact ih.2 hst

/-- C9: in every reachable configuration, while the engine is in
DATA_OUT or LAST_DATA_OUT the staged buffer is the device control buffer
at offset 0 with ctrl_len at most wLength at most ctrl_buf_len, so the
next read_data_out writes the byte range starting at offset ctrl_len of
size min(max packet size, wLength - ctrl_len), which stays within
ctrl_buf_len; and the occupied entries of the callback table always form
a contiguous leading block, so the dispatch loop's break at the first
empty slot skips no registered callback (it scans exactly the registered
entries in order). -/
theorem c9_reachable_invariant :
    ∀ (hf : Nat → HandlerFn) (std : StdFn) (d : qusb_device),
      Reach hf std d →
      tableContig d.user_control_callback = true ∧
      out_stage_inv d ∧
      ((d.control_state.state = CtrlState.DATA_OUT ∨
        d.control_state.state = CtrlState.LAST_DATA_OUT) →
        d.control_state.ctrl_len +
            min_u16 d.bMaxPacketSize0
              (sub16 d.control_state.req.wLength
                d.control_state.ctrl_len) ≤
          d.ctrl_buf_len) ∧
      (∀ (req : qusb_setup_data) (s : ctrl_slots),
        dispatch_loop hf req d.user_control_callback s =
          scan_callbacks hf req (occupied d.user_control_callback) s) := by
  intro hf std d h
  have hi := reach_inv hf std d h
  refine ⟨hi.1, hi.2, ?_, ?_⟩
  · intro hst
    obtain ⟨hbuf, hlen, hcap, hw⟩ := hi.2 hst
    rw [min_u16, sub16_of_le _ _ hlen hw]
    omega
  · intro req s
    exact dispatch_loop_eq_scan hf req _ s hi.1

theorem c9_reachable_invariant_witness :
    tableContig (initial_device 3 64 64).user_control_callback = true ∧
    out_stage_inv (initial_device 3 64 64) ∧
    (((initial_device 3 64 64).control_state.state = CtrlState.DATA_OUT ∨
      (initial_device 3 64 64).control_state.state =
        CtrlState.LAST_DATA_OUT) →
      (initial_device 3 64 64).control_state.ctrl_len +
          min_u16 (initial_device 3 64 64).bMaxPacketSize0
            (sub16 (initial_device 3 64 64).control_state.req.wLength
              (initial_device 3 64 64).control_state.ctrl_len) ≤
        (initial_device 3 64 64).ctrl_buf_len) ∧
    (∀ (req : qusb_setup_data) (s : ctrl_slots),
      dispatch_loop hfEx req
          (initial_device 3 64 64).user_control_callback s =
        scan_callbacks hfEx req
          (occupied (initial_device 3 64 64).user_control_callback) s) :=
  c9_reachable_invariant hfEx stdEx (initial_device 3 64 64)
    (Reach.init 3 64 64)

end Qusb
